import Mathlib

/-!
Verification of the claims-processing pipeline in `scripts/read_data.py`
(class `DataProcessor`).

The pipeline loads three families of tabular records (pharmacies, claims,
reverts), validates each batch against a required-column set, filters claims
referentially against the pharmacy table, and runs three analyses:
a summary aggregation (claims left-joined to reverts, grouped by npi/ndc),
a top-4 most-prescribed-quantities ranking per npi, and a top-2 chains by
average price ranking per ndc.

Cells of a pandas DataFrame are modelled by `Value`: a null (NaN), a string,
or a number (JSON/CSV numbers are modelled as rationals; integers have
denominator 1, matching int64 columns).  Generic DataFrames are modelled by
`Batch` (a column list plus rows of cells, positionally aligned); the typed
record shapes that the analyses access are modelled by `PharmacyRow`,
`ClaimRow` and `ReversalRow`.
-/

/-- Model of a single pandas cell: NaN, a string, or a number. -/
inductive Value where
  | null : Value
  | vStr : String → Value
  | vNum : ℚ → Value
deriving DecidableEq, Repr

namespace Value

/-- Model of `astype(str)` on a single cell: a string is unchanged, an
integer-valued number renders without a decimal part (pandas int64 columns
print as `123`), and NaN prints as `nan`. -/
def toStr : Value → String
  | null => "nan"
  | vStr s => s
  | vNum q => if q.den = 1 then toString q.num else toString q

/-- Model of reading a numeric cell (`astype(float)` on already-numeric
data): numbers give their value, anything else gives 0 (not exercised by the
validated pipeline data, which is numeric in these columns). -/
def toRat : Value → ℚ
  | vNum q => q
  | _ => 0

/-- Model of pandas `notna` on a single cell. -/
def notna : Value → Bool
  | null => false
  | _ => true

end Value

/-- Model of a generic pandas DataFrame: named columns and rows of cells,
positionally aligned with the column list. -/
structure Batch where
  cols : List String
  rows : List (List Value)
deriving DecidableEq, Repr

/-- Cell lookup by column name, walking the column list and a row in
parallel (a pandas row always carries every column of its frame; a missing
position reads as NaN). -/
def getCell : List String → List Value → String → Value
  | [], _, _ => Value.null
  | _ :: _, [], _ => Value.null
  | col :: cols, v :: vs, c => if col = c then v else getCell cols vs c

/-- Required columns for the pharmacy CSV files
(`pharmacies_required_columns` in `process_datasets`). -/
def pharmacies_required_columns : List String := ["chain", "npi"]

/-- Required columns for the claims JSON files
(`claims_required_columns` in `process_datasets`). -/
def claims_required_columns : List String :=
  ["id", "ndc", "npi", "quantity", "price", "timestamp"]

/-- Required columns for the reverts JSON files
(`reverts_required_columns` in `process_datasets`). -/
def reverts_required_columns : List String := ["id", "claim_id", "timestamp"]

/-- Row-level validity used by `dropna(subset=required_columns)`: every
required column of the row holds a non-null cell. -/
def rowValid (cols required : List String) (row : List Value) : Bool :=
  required.all (fun c => (getCell cols row c).notna)

/-- Model of `load_and_validate_csv` / `load_and_validate_json` after a
successful parse (both bodies are identical): if the required columns are
not a subset of the batch's columns the whole batch is returned as invalid
with no valid part (`return None, data`); otherwise the rows are partitioned
by `rowValid` (`dropna(subset=...)` and the index complement). -/
def load_and_validate (required : List String) (b : Batch) :
    Option Batch × Batch :=
  if required.all (fun c => b.cols.contains c) then
    (some ⟨b.cols, b.rows.filter (rowValid b.cols required)⟩,
     ⟨b.cols, b.rows.filter (fun r => !rowValid b.cols required r)⟩)
  else
    (none, b)

/-- Model of `pd.concat(frames, ignore_index=True) if frames else
pd.DataFrame()`: an empty input list yields the empty frame with NO columns;
otherwise columns are united left to right and rows concatenated. -/
def concatBatches (bs : List Batch) : Batch :=
  ⟨bs.foldl (fun acc b => acc ++ b.cols.filter (fun c => !acc.contains c)) [],
   bs.foldl (fun acc b => acc ++ b.rows) []⟩

/-- Model of `process_folder` on the already-parsed batches of the files
that match the folder's format: each file goes through the validator;
files whose validation returned `None` contribute no valid rows; the valid
and invalid parts are concatenated separately (the invalid side is then
written to the quarantine sink, which is outside this model). -/
def process_folder (required : List String) (files : List Batch) :
    Batch × Batch :=
  let results := files.map (load_and_validate required)
  (concatBatches (results.filterMap Prod.fst),
   concatBatches (results.map Prod.snd))

/-- Valid rows of a validation result (empty when the whole batch was
rejected). -/
def validRowsOf (required : List String) (b : Batch) : List (List Value) :=
  match (load_and_validate required b).1 with
  | some v => v.rows
  | none => []

/-- Invalid rows of a validation result. -/
def invalidRowsOf (required : List String) (b : Batch) : List (List Value) :=
  (load_and_validate required b).2.rows

/-- Typed view of a validated pharmacy row (columns `chain`, `npi`). -/
structure PharmacyRow where
  chain : Value
  npi : Value
deriving DecidableEq, Repr

/-- Typed view of a validated claim row (columns `id`, `ndc`, `npi`,
`quantity`, `price`, `timestamp`; `quantity` and `price` are numeric in the
data the analyses consume, so they are carried as rationals). -/
structure ClaimRow where
  id : Value
  ndc : Value
  npi : Value
  quantity : ℚ
  price : ℚ
  timestamp : Value
deriving DecidableEq, Repr

/-- Typed view of a validated revert row (columns `id`, `claim_id`,
`timestamp`). -/
structure ReversalRow where
  id : Value
  claim_id : Value
  timestamp : Value
deriving DecidableEq, Repr

/-- Model of `set(company_data["npi"].astype(str))` in `process_datasets`:
the pharmacy npi values coerced to strings (kept as a list; membership is
what matters). -/
def valid_npi_set (pharm : List PharmacyRow) : List String :=
  pharm.map (fun p => p.npi.toStr)

/-- Model of `claims_data[claims_data["npi"].astype(str).isin(valid_npi_set)]`:
the claim rows whose npi COERCED TO STRING is in the pharmacy npi set. -/
def valid_claims (pharm : List PharmacyRow) (claims : List ClaimRow) :
    List ClaimRow :=
  claims.filter (fun c => (valid_npi_set pharm).contains c.npi.toStr)

/-- Membership test of `claims_data["npi"].isin(valid_npi_set)` WITHOUT the
string coercion (the code's line for `invalid_claims` omits `astype(str)`):
a raw cell equals an element of a set of strings only when it is itself that
string (a Python int never equals a str). -/
def rawIn (v : Value) (s : List String) : Bool :=
  match v with
  | Value.vStr x => s.contains x
  | _ => false

/-- Model of `claims_data[~claims_data["npi"].isin(valid_npi_set)]`: the
claim rows whose RAW npi value is not in the pharmacy npi set. -/
def invalid_claims (pharm : List PharmacyRow) (claims : List ClaimRow) :
    List ClaimRow :=
  claims.filter (fun c => !rawIn c.npi (valid_npi_set pharm))

/-- Reverts matching one claim under the left-join key
`claims.id = reverts.claim_id` (pandas `merge` also matches NaN keys to NaN
keys, which plain equality on `Value` reproduces). -/
def matchingReverts (revs : List ReversalRow) (c : ClaimRow) :
    List ReversalRow :=
  revs.filter (fun r => r.claim_id == c.id)

/-- Joined rows produced for one claim by the left join in
`perform_analysis`: with no matching revert the claim survives once paired
with nulls; with k matching reverts it fans out into k joined rows. -/
def joinBlock (revs : List ReversalRow) (c : ClaimRow) :
    List (ClaimRow × Option ReversalRow) :=
  let ms := matchingReverts revs c
  if ms.isEmpty then [(c, none)] else ms.map (fun r => (c, some r))

/-- Model of `claims_data.merge(rollbacks_data, left_on="id",
right_on="claim_id", how="left")`, keeping the left row order. -/
def leftJoin (claims : List ClaimRow) (revs : List ReversalRow) :
    List (ClaimRow × Option ReversalRow) :=
  match claims with
  | [] => []
  | c :: cs => joinBlock revs c ++ leftJoin cs revs

/-- Model of `combined_data["rollback_flag"] =
combined_data["claim_id"].notna().astype(int)`: after the left join the
`claim_id` column comes from the revert side, so the flag is 1 exactly when
a revert row with a non-null `claim_id` was matched. -/
def rollbackFlag (j : ClaimRow × Option ReversalRow) : ℕ :=
  match j.2 with
  | some r => if r.claim_id.notna then 1 else 0
  | none => 0

/-- Worker for `firstDedup`: keeps the first occurrence of each element not
already seen. -/
def firstDedupAux {α : Type} [DecidableEq α] (seen : List α) :
    List α → List α
  | [] => []
  | x :: xs =>
    if seen.contains x then firstDedupAux seen xs
    else x :: firstDedupAux (x :: seen) xs

/-- First-occurrence deduplication, the key order of a Python dict /
`Counter` and the row set of a groupby (pandas sorts group keys, but no
verified claim depends on the enumeration order of groups, so groups are
listed in first-occurrence order here). -/
def firstDedup {α : Type} [DecidableEq α] (l : List α) : List α :=
  firstDedupAux [] l

/-- Rows of the left join falling into the `(npi, ndc)` group `k`. -/
def groupRows (claims : List ClaimRow) (revs : List ReversalRow)
    (k : Value × Value) : List (ClaimRow × Option ReversalRow) :=
  (leftJoin claims revs).filter (fun j => j.1.npi == k.1 && j.1.ndc == k.2)

/-- Aggregate `fills=("quantity", "sum")` of one `(npi, ndc)` group. -/
def fillsOf (claims : List ClaimRow) (revs : List ReversalRow)
    (k : Value × Value) : ℚ :=
  ((groupRows claims revs k).map (fun j => j.1.quantity)).sum

/-- Aggregate `reverted=("rollback_flag", "sum")` of one group. -/
def revertedOf (claims : List ClaimRow) (revs : List ReversalRow)
    (k : Value × Value) : ℕ :=
  ((groupRows claims revs k).map rollbackFlag).sum

/-- Aggregate `avg_price=("price", "mean")` of one group. -/
def avgPriceOf (claims : List ClaimRow) (revs : List ReversalRow)
    (k : Value × Value) : ℚ :=
  ((groupRows claims revs k).map (fun j => j.1.price)).sum /
    (groupRows claims revs k).length

/-- Aggregate `total_price=("price", lambda x: (x * quantity).sum())` of one
group. -/
def totalPriceOf (claims : List ClaimRow) (revs : List ReversalRow)
    (k : Value × Value) : ℚ :=
  ((groupRows claims revs k).map (fun j => j.1.price * j.1.quantity)).sum

/-- One output record of the summary aggregation. -/
structure AggregateRow where
  npi : Value
  ndc : Value
  fills : ℚ
  reverted : ℕ
  avg_price : ℚ
  total_price : ℚ
deriving DecidableEq, Repr

/-- Group-and-aggregate core of `perform_analysis`: left-join claims to
reverts, group by `(npi, ndc)`, and emit one `AggregateRow` per group (the
spec fixes no enumeration order for the groups). -/
def perform_analysis_core (claims : List ClaimRow)
    (revs : List ReversalRow) : List AggregateRow :=
  (firstDedup ((leftJoin claims revs).map (fun j => (j.1.npi, j.1.ndc)))).map
    (fun k => ⟨k.1, k.2, fillsOf claims revs k, revertedOf claims revs k,
               avgPriceOf claims revs k, totalPriceOf claims revs k⟩)

/-- Model of `perform_analysis(pharmacy_data, claims_data, rollbacks_data)`:
if any of the three inputs is absent (`None`) the function logs and returns
the empty list; otherwise it runs the aggregation core (the pharmacy table
itself is only None-checked, not read). -/
def perform_analysis (pharmacy_data : Option (List PharmacyRow))
    (claims_data : Option (List ClaimRow))
    (rollbacks_data : Option (List ReversalRow)) : List AggregateRow :=
  match claims_data, rollbacks_data, pharmacy_data with
  | some cs, some rs, some _ => perform_analysis_core cs rs
  | _, _, _ => []

/-- Index of the first occurrence of an element in a list (length of the
list when absent). -/
def firstIdx {α : Type} [DecidableEq α] : List α → α → ℕ
  | [], _ => 0
  | x :: xs, a => if x = a then 0 else firstIdx xs a + 1

/-- Model of `Counter(quantities)` as an association list: the distinct
quantities in first-occurrence order (a Python dict preserves insertion
order), each with its number of occurrences. -/
def countOccur (xs : List ℚ) : List (ℚ × ℕ) :=
  (firstDedup xs).map (fun q => (q, xs.count q))

/-- Stable descending insertion by the count component: an element passes
over entries with a strictly larger count and lands in front of the first
entry whose count is not larger, so earlier-listed elements precede
later-listed elements of equal count. -/
def insByCount (x : ℚ × ℕ) : List (ℚ × ℕ) → List (ℚ × ℕ)
  | [] => [x]
  | y :: ys => if x.2 < y.2 then y :: insByCount x ys else x :: y :: ys

/-- Stable sort by descending count, the order produced by Python's stable
`sorted(items, key=count, reverse=True)` inside `Counter.most_common`. -/
def sortByCountDesc (l : List (ℚ × ℕ)) : List (ℚ × ℕ) :=
  l.foldr insByCount []

/-- Model of `[qty for qty, _ in Counter(xs).most_common(4)]`. -/
def mostCommon4 (xs : List ℚ) : List ℚ :=
  ((sortByCountDesc (countOccur xs)).take 4).map Prod.fst

/-- Quantities of one npi group, in original row order (pandas
`groupby("npi")["quantity"].apply(list)` keeps the within-group order). -/
def groupQ (rows : List (String × ℚ)) (n : String) : List ℚ :=
  (rows.filter (fun r => r.1 == n)).map Prod.snd

/-- Group-and-rank core of `calculate_top_prescribed_quantities`, on the
`(npi-as-string, quantity-as-float)` projection of the claims table: one
entry per distinct npi carrying its top-4 most common quantities. -/
def topQuantitiesCore (rows : List (String × ℚ)) :
    List (String × List ℚ) :=
  (firstDedup (rows.map Prod.fst)).map (fun n => (n, mostCommon4 (groupQ rows n)))

/-- Projection of a generic claims batch to the two columns the
top-quantities analysis reads, applying its coercions
(`npi.astype(str)`, `quantity.astype(float)`). -/
def tqExtract (b : Batch) : List (String × ℚ) :=
  b.rows.map (fun r => ((getCell b.cols r "npi").toStr,
                        (getCell b.cols r "quantity").toRat))

/-- Model of `calculate_top_prescribed_quantities(claims_data)`: raises
`KeyError` (modelled as `Except.error`) when `npi` or `quantity` is missing
from the claims batch's columns, otherwise runs the group-and-rank core. -/
def calculate_top_prescribed_quantities (b : Batch) :
    Except String (List (String × List ℚ)) :=
  if "npi" ∈ b.cols then
    if "quantity" ∈ b.cols then
      Except.ok (topQuantitiesCore (tqExtract b))
    else
      Except.error "Column quantity not found in claims_data"
  else
    Except.error "Column npi not found in claims_data"

/-- In-place effect of `calculate_top_prescribed_quantities` on the caller's
claims table: lines 209-210 assign `claims_data["npi"] = ...astype(str)` and
`claims_data["quantity"] = ...astype(float)` into the DataFrame that was
passed in, so after the call the caller sees the coerced table (the quantity
coercion is the identity here because `ClaimRow.quantity` is already
numeric). -/
def topQuantitiesEffect (claims : List ClaimRow) : List ClaimRow :=
  claims.map (fun c => { c with npi := Value.vStr c.npi.toStr })

/-- In-place effect of `calculate_top_chains` on the caller's pharmacy
table: line 240 assigns `pharmacy_data["npi"] = ...astype(str)` into the
passed DataFrame. -/
def tcPharmacyEffect (pharm : List PharmacyRow) : List PharmacyRow :=
  pharm.map (fun p => { p with npi := Value.vStr p.npi.toStr })

/-- In-place effect of `calculate_top_chains` on the caller's claims table:
lines 241-242 assign string-coerced `npi` and `ndc` into the passed
DataFrame. -/
def tcClaimsEffect (claims : List ClaimRow) : List ClaimRow :=
  claims.map (fun c => { c with npi := Value.vStr c.npi.toStr,
                                ndc := Value.vStr c.ndc.toStr })

/-- Pharmacy rows matching one claim under the inner-join key `npi`
(applied after both sides were string-coerced). -/
def tcMatching (pharm : List PharmacyRow) (c : ClaimRow) :
    List PharmacyRow :=
  pharm.filter (fun p => p.npi == c.npi)

/-- Model of `claims_data.merge(pharmacy_data[["npi", "chain"]], on="npi",
how="inner")`: every claim fans out into one joined row per matching
pharmacy row, carrying that row's chain; claims with no match are dropped. -/
def tcJoin (pharm : List PharmacyRow) : List ClaimRow →
    List (ClaimRow × Value)
  | [] => []
  | c :: cs => (tcMatching pharm c).map (fun p => (c, p.chain)) ++ tcJoin pharm cs

/-- Price column of one `(ndc, chain)` group of the top-chains join. -/
def tcGroupPrices (pharm : List PharmacyRow) (claims : List ClaimRow)
    (d : Value) (ch : Value) : List ℚ :=
  ((tcJoin pharm claims).filter (fun j => j.1.ndc == d && j.2 == ch)).map
    (fun j => j.1.price)

/-- Aggregate `avg_price=("price", "mean")` of one `(ndc, chain)` group. -/
def tcAvgPrice (pharm : List PharmacyRow) (claims : List ClaimRow)
    (d : Value) (ch : Value) : ℚ :=
  (tcGroupPrices pharm claims d ch).sum / (tcGroupPrices pharm claims d ch).length

/-- Grouped `(ndc, chain) -> avg_price` rows of `calculate_top_chains`,
one per distinct key of the join. -/
def topChainsGrouped (pharm : List PharmacyRow) (claims : List ClaimRow) :
    List ((Value × Value) × ℚ) :=
  (firstDedup ((tcJoin pharm claims).map (fun j => (j.1.ndc, j.2)))).map
    (fun k => (k, tcAvgPrice pharm claims k.1 k.2))

/-- Stable descending insertion by average price, for the per-ndc ranking. -/
def insByAvg (x : (Value × Value) × ℚ) :
    List ((Value × Value) × ℚ) → List ((Value × Value) × ℚ)
  | [] => [x]
  | y :: ys => if x.2 < y.2 then y :: insByAvg x ys else x :: y :: ys

/-- Ranking-and-format step of `calculate_top_chains`: per distinct ndc,
sort that ndc's `(chain, avg_price)` rows by descending average price and
keep the first two (`sort_values(...).groupby("ndc").head(2)`; `sort_values`
fixes no tie order, so a stable descending sort is one admissible
realisation), then format one record per ndc
(`top_chains.groupby("ndc").apply(...).tolist()`, lines 264-275).  When the
join produced NO rows there are zero ndc groups, pandas `groupby.apply`
then returns an empty DataFrame instead of a Series, and the `.tolist()`
call at line 274 raises `AttributeError` — modelled as `Except.error`. -/
def topChainsResult (pharm : List PharmacyRow) (claims : List ClaimRow) :
    Except String (List (Value × List (Value × ℚ))) :=
  let grouped := topChainsGrouped pharm claims
  if grouped.isEmpty then
    Except.error "AttributeError: DataFrame object has no attribute tolist"
  else
    Except.ok ((firstDedup (grouped.map (fun g => g.1.1))).map (fun d =>
      (d, (((grouped.filter (fun g => g.1.1 == d)).foldr insByAvg []).take 2).map
            (fun g => (g.1.2, g.2)))))

/-- Model of `calculate_top_chains(pharmacy_data, claims_data)`: the two
input tables are first string-coerced IN PLACE (lines 240-242), then joined,
grouped, ranked and formatted (raising on an empty join, see
`topChainsResult`); the triple carries the analysis outcome together with
the two tables as the caller sees them after the call. -/
def calculate_top_chains (pharm : List PharmacyRow) (claims : List ClaimRow) :
    Except String (List (Value × List (Value × ℚ))) ×
      List PharmacyRow × List ClaimRow :=
  let pharm' := tcPharmacyEffect pharm
  let claims' := tcClaimsEffect claims
  (topChainsResult pharm' claims', pharm', claims')

theorem mem_firstDedupAux {α : Type} [DecidableEq α] (a : α) (l : List α) :
    ∀ seen : List α, a ∈ firstDedupAux seen l ↔ a ∈ l ∧ a ∉ seen := by
  induction l with
  | nil => intro seen; simp [firstDedupAux]
  | cons x xs ih =>
    intro seen
    by_cases hx : seen.contains x = true
    · rw [firstDedupAux, if_pos hx, ih]
      have hxs : x ∈ seen := by simpa using hx
      simp only [List.mem_cons]
      constructor
      · rintro ⟨h1, h2⟩; exact ⟨Or.inr h1, h2⟩
      · rintro ⟨h1 | h1, h2⟩
        · exact absurd (h1 ▸ hxs) h2
        · exact ⟨h1, h2⟩
    · rw [firstDedupAux, if_neg hx]
      have hxs : x ∉ seen := by simpa using hx
      simp only [List.mem_cons, ih]
      constructor
      · rintro (rfl | ⟨h1, h2⟩)
        · exact ⟨Or.inl rfl, hxs⟩
        · exact ⟨Or.inr h1, fun hc => h2 (Or.inr hc)⟩
      · rintro ⟨rfl | h1, h2⟩
        · exact Or.inl rfl
        · by_cases hax : a = x
          · exact Or.inl hax
          · exact Or.inr ⟨h1, by simp [List.mem_cons, hax, h2]⟩

theorem mem_firstDedup {α : Type} [DecidableEq α] (a : α) (l : List α) :
    a ∈ firstDedup l ↔ a ∈ l := by
  simp [firstDedup, mem_firstDedupAux]

theorem nodup_firstDedupAux {α : Type} [DecidableEq α] (l : List α) :
    ∀ seen : List α, (firstDedupAux seen l).Nodup := by
  induction l with
  | nil => intro seen; simp [firstDedupAux]
  | cons x xs ih =>
    intro seen
    by_cases hx : seen.contains x = true
    · rw [firstDedupAux, if_pos hx]; exact ih seen
    · rw [firstDedupAux, if_neg hx]
      refine List.Nodup.cons ?_ (ih (x :: seen))
      intro hc
      exact ((mem_firstDedupAux x xs (x :: seen)).mp hc).2 (List.mem_cons_self x seen)

theorem nodup_firstDedup {α : Type} [DecidableEq α] (l : List α) :
    (firstDedup l).Nodup :=
  nodup_firstDedupAux l []

theorem firstIdx_cons {α : Type} [DecidableEq α] (x a : α) (xs : List α) :
    firstIdx (x :: xs) a = if x = a then 0 else firstIdx xs a + 1 := rfl

theorem pairwise_firstIdx_firstDedupAux {α : Type} [DecidableEq α] (l : List α) :
    ∀ seen : List α, (firstDedupAux seen l).Pairwise
      (fun a b => firstIdx l a < firstIdx l b) := by
  induction l with
  | nil => intro seen; simp [firstDedupAux]
  | cons x xs ih =>
    intro seen
    by_cases hx : seen.contains x = true
    · rw [firstDedupAux, if_pos hx]
      have hxseen : x ∈ seen := by simpa using hx
      refine (ih seen).imp_of_mem ?_
      intro a b ha hb hab
      have hane : x ≠ a := by
        intro hxa
        exact ((mem_firstDedupAux a xs seen).mp ha).2 (hxa ▸ hxseen)
      have hbne : x ≠ b := by
        intro hxb
        exact ((mem_firstDedupAux b xs seen).mp hb).2 (hxb ▸ hxseen)
      rw [firstIdx_cons, if_neg hane, firstIdx_cons, if_neg hbne]
      omega
    · rw [firstDedupAux, if_neg hx]
      refine List.Pairwise.cons ?_ ?_
      · intro b hb
        have hbne : x ≠ b := by
          intro hxb
          refine ((mem_firstDedupAux b xs (x :: seen)).mp hb).2 ?_
          rw [← hxb]
          exact List.mem_cons_self x seen
        rw [firstIdx_cons, if_pos rfl, firstIdx_cons, if_neg hbne]
        omega
      · refine (ih (x :: seen)).imp_of_mem ?_
        intro a b ha hb hab
        have hane : x ≠ a := by
          intro hxa
          refine ((mem_firstDedupAux a xs (x :: seen)).mp ha).2 ?_
          rw [← hxa]
          exact List.mem_cons_self x seen
        have hbne : x ≠ b := by
          intro hxb
          refine ((mem_firstDedupAux b xs (x :: seen)).mp hb).2 ?_
          rw [← hxb]
          exact List.mem_cons_self x seen
        rw [firstIdx_cons, if_neg hane, firstIdx_cons, if_neg hbne]
        omega

theorem pairwise_firstIdx_firstDedup {α : Type} [DecidableEq α] (l : List α) :
    (firstDedup l).Pairwise (fun a b => firstIdx l a < firstIdx l b) :=
  pairwise_firstIdx_firstDedupAux l []

theorem insByCount_perm (x : ℚ × ℕ) (m : List (ℚ × ℕ)) :
    List.Perm (insByCount x m) (x :: m) := by
  induction m with
  | nil => simp [insByCount]
  | cons y ys ih =>
    simp only [insByCount]
    split
    · exact (ih.cons y).trans (List.Perm.swap x y ys)
    · exact List.Perm.refl _

theorem sortByCountDesc_perm (l : List (ℚ × ℕ)) :
    List.Perm (sortByCountDesc l) l := by
  induction l with
  | nil => exact List.Perm.refl _
  | cons x xs ih =>
    have h : sortByCountDesc (x :: xs) = insByCount x (sortByCountDesc xs) := rfl
    rw [h]
    exact (insByCount_perm x _).trans (ih.cons x)

theorem insByCount_pairwise {S : ℚ × ℕ → ℚ × ℕ → Prop} (x : ℚ × ℕ)
    (m : List (ℚ × ℕ))
    (hm : m.Pairwise (fun p q => q.2 < p.2 ∨ (p.2 = q.2 ∧ S p q)))
    (hx : ∀ y ∈ m, S x y) :
    (insByCount x m).Pairwise (fun p q => q.2 < p.2 ∨ (p.2 = q.2 ∧ S p q)) := by
  induction m with
  | nil => simp [insByCount]
  | cons y ys ih =>
    rcases List.pairwise_cons.mp hm with ⟨hy, hys⟩
    simp only [insByCount]
    split
    next hlt =>
      refine List.pairwise_cons.mpr
        ⟨?_, ih hys (fun z hz => hx z (List.mem_cons_of_mem y hz))⟩
      intro z hz
      have hz' : z = x ∨ z ∈ ys := by
        simpa using (insByCount_perm x ys).mem_iff.mp hz
      rcases hz' with rfl | hz'
      · exact Or.inl hlt
      · exact hy z hz'
    next hge =>
      refine List.pairwise_cons.mpr ⟨?_, hm⟩
      intro z hz
      rcases List.mem_cons.mp hz with rfl | hz'
      · rcases Nat.lt_or_ge z.2 x.2 with h | h
        · exact Or.inl h
        · exact Or.inr ⟨by omega, hx z (List.mem_cons_self z ys)⟩
      · rcases hy z hz' with h | ⟨h1, h2⟩
        · rcases Nat.lt_or_ge z.2 x.2 with h' | h'
          · exact Or.inl h'
          · exact Or.inr ⟨by omega, hx z (List.mem_cons_of_mem y hz')⟩
        · rcases Nat.lt_or_ge z.2 x.2 with h' | h'
          · exact Or.inl h'
          · exact Or.inr ⟨by omega, hx z (List.mem_cons_of_mem y hz')⟩

theorem sortByCountDesc_pairwise {S : ℚ × ℕ → ℚ × ℕ → Prop}
    (l : List (ℚ × ℕ)) (hl : l.Pairwise S) :
    (sortByCountDesc l).Pairwise
      (fun p q => q.2 < p.2 ∨ (p.2 = q.2 ∧ S p q)) := by
  induction l with
  | nil => simp [sortByCountDesc]
  | cons x xs ih =>
    rcases List.pairwise_cons.mp hl with ⟨hx, hxs⟩
    have h : sortByCountDesc (x :: xs) = insByCount x (sortByCountDesc xs) := rfl
    rw [h]
    refine insByCount_pairwise x _ (ih hxs) ?_
    intro y hy
    exact hx y ((sortByCountDesc_perm xs).mem_iff.mp hy)

theorem mem_countOccur (xs : List ℚ) (p : ℚ × ℕ) (hp : p ∈ countOccur xs) :
    p.1 ∈ xs ∧ p.2 = xs.count p.1 := by
  rcases List.mem_map.mp hp with ⟨q, hq, rfl⟩
  exact ⟨(mem_firstDedup q xs).mp hq, rfl⟩

theorem countOccur_pairwise (xs : List ℚ) :
    (countOccur xs).Pairwise (fun p q => firstIdx xs p.1 < firstIdx xs q.1) := by
  rw [countOccur]
  exact (List.pairwise_map).mpr (by simpa using pairwise_firstIdx_firstDedup xs)

theorem mostCommon4_spec (xs : List ℚ) :
    (mostCommon4 xs).length ≤ 4 ∧
    (∀ q ∈ mostCommon4 xs, q ∈ xs) ∧
    (mostCommon4 xs).Pairwise (fun a b => xs.count b < xs.count a ∨
      (xs.count a = xs.count b ∧ firstIdx xs a < firstIdx xs b)) := by
  have hperm := sortByCountDesc_perm (countOccur xs)
  have hpair := sortByCountDesc_pairwise (countOccur xs) (countOccur_pairwise xs)
  refine ⟨?_, ?_, ?_⟩
  · rw [mostCommon4, List.length_map]
    exact List.length_take_le 4 _
  · intro q hq
    rcases List.mem_map.mp hq with ⟨p, hp, rfl⟩
    have hp' : p ∈ sortByCountDesc (countOccur xs) :=
      (List.take_sublist 4 _).subset hp
    exact (mem_countOccur xs p (hperm.mem_iff.mp hp')).1
  · rw [mostCommon4]
    refine (List.pairwise_map).mpr ?_
    have htake : (List.take 4 (sortByCountDesc (countOccur xs))).Pairwise
        (fun p q => q.2 < p.2 ∨ (p.2 = q.2 ∧ firstIdx xs p.1 < firstIdx xs q.1)) :=
      hpair.sublist (List.take_sublist 4 _)
    refine htake.imp_of_mem ?_
    intro p q hp hq hpq
    have hpc := (mem_countOccur xs p (hperm.mem_iff.mp
      ((List.take_sublist 4 _).subset hp))).2
    have hqc := (mem_countOccur xs q (hperm.mem_iff.mp
      ((List.take_sublist 4 _).subset hq))).2
    rcases hpq with h | ⟨h1, h2⟩
    · exact Or.inl (by rw [← hpc, ← hqc]; exact h)
    · exact Or.inr ⟨by rw [← hpc, ← hqc]; exact h1, h2⟩

theorem topQuantitiesCore_spec (rows : List (String × ℚ)) :
    ((topQuantitiesCore rows).map Prod.fst).Nodup ∧
    (∀ n, n ∈ (topQuantitiesCore rows).map Prod.fst ↔ n ∈ rows.map Prod.fst) ∧
    ∀ e ∈ topQuantitiesCore rows,
      e.2.length ≤ 4 ∧
      (∀ q ∈ e.2, q ∈ groupQ rows e.1) ∧
      e.2.Pairwise (fun a b =>
        (groupQ rows e.1).count b < (groupQ rows e.1).count a ∨
        ((groupQ rows e.1).count a = (groupQ rows e.1).count b ∧
          firstIdx (groupQ rows e.1) a < firstIdx (groupQ rows e.1) b)) := by
  have hmap : (topQuantitiesCore rows).map Prod.fst =
      firstDedup (rows.map Prod.fst) := by
    rw [topQuantitiesCore, List.map_map]
    rw [show (Prod.fst ∘ fun n => (n, mostCommon4 (groupQ rows n))) = id from rfl]
    exact List.map_id _
  refine ⟨?_, ?_, ?_⟩
  · rw [hmap]; exact nodup_firstDedup _
  · intro n; rw [hmap]; exact mem_firstDedup n _
  · intro e he
    rcases List.mem_map.mp he with ⟨n, _, rfl⟩
    exact mostCommon4_spec (groupQ rows n)

theorem leftJoin_nil (revs : List ReversalRow) : leftJoin [] revs = [] := rfl

theorem leftJoin_cons (c : ClaimRow) (cs : List ClaimRow)
    (revs : List ReversalRow) :
    leftJoin (c :: cs) revs = joinBlock revs c ++ leftJoin cs revs := rfl

theorem joinBlock_fst (revs : List ReversalRow) (c : ClaimRow) :
    ∀ j ∈ joinBlock revs c, j.1 = c := by
  intro j hj
  simp only [joinBlock] at hj
  split at hj
  · simp only [List.mem_singleton] at hj
    rw [hj]
  · rcases List.mem_map.mp hj with ⟨r, _, rfl⟩
    rfl

theorem joinBlock_length (revs : List ReversalRow) (c : ClaimRow) :
    (joinBlock revs c).length = max 1 (matchingReverts revs c).length := by
  rcases h : matchingReverts revs c with _ | ⟨r, rs⟩
  · simp [joinBlock, h]
  · simp only [joinBlock, h, List.isEmpty_cons, List.length_map, List.length_cons]
    rw [if_neg (by simp)]
    simp only [List.length_map, List.length_cons]
    omega

theorem mem_joinBlock_self (revs : List ReversalRow) (c : ClaimRow) :
    ∃ j ∈ joinBlock revs c, j.1 = c := by
  rcases h : matchingReverts revs c with _ | ⟨r, rs⟩
  · exact ⟨(c, none), by simp [joinBlock, h], rfl⟩
  · refine ⟨(c, some r), ?_, rfl⟩
    simp only [joinBlock, h]
    rw [if_neg (by simp)]
    exact List.mem_map.mpr ⟨r, List.mem_cons_self r rs, rfl⟩

theorem exists_mem_leftJoin (revs : List ReversalRow) (c : ClaimRow) :
    ∀ claims : List ClaimRow, c ∈ claims →
      ∃ j ∈ leftJoin claims revs, j.1 = c := by
  intro claims
  induction claims with
  | nil => intro h; cases h
  | cons d ds ih =>
    intro hc
    rcases List.mem_cons.mp hc with rfl | hmem
    · rcases mem_joinBlock_self revs c with ⟨j, hj1, hj2⟩
      exact ⟨j, by rw [leftJoin_cons]; exact List.mem_append_left _ hj1, hj2⟩
    · rcases ih hmem with ⟨j, hj1, hj2⟩
      exact ⟨j, by rw [leftJoin_cons]; exact List.mem_append_right _ hj1, hj2⟩

theorem groupRows_weight_sum (w : ClaimRow → ℚ) (revs : List ReversalRow)
    (k : Value × Value) :
    ∀ claims : List ClaimRow,
      ((groupRows claims revs k).map (fun j => w j.1)).sum =
        (claims.map (fun c => if c.npi == k.1 && c.ndc == k.2
          then (((max 1 (matchingReverts revs c).length : ℕ) : ℚ) * w c)
          else 0)).sum := by
  intro claims
  induction claims with
  | nil => simp [groupRows, leftJoin_nil]
  | cons c cs ih =>
    have hsplit : groupRows (c :: cs) revs k =
        (joinBlock revs c).filter
          (fun j => j.1.npi == k.1 && j.1.ndc == k.2) ++ groupRows cs revs k := by
      simp [groupRows, leftJoin_cons, List.filter_append]
    rw [hsplit, List.map_append, List.sum_append, List.map_cons, List.sum_cons, ih]
    congr 1
    by_cases hc : (c.npi == k.1 && c.ndc == k.2) = true
    · rw [if_pos hc]
      have hfilter : (joinBlock revs c).filter
          (fun j => j.1.npi == k.1 && j.1.ndc == k.2) = joinBlock revs c := by
        refine List.filter_eq_self.mpr ?_
        intro j hj
        rw [joinBlock_fst revs c j hj]
        exact hc
      have hmap : (joinBlock revs c).map (fun j => w j.1) =
          List.replicate (joinBlock revs c).length (w c) := by
        refine List.eq_replicate_iff.mpr ⟨by rw [List.length_map], ?_⟩
        intro b hb
        rcases List.mem_map.mp hb with ⟨j, hj, rfl⟩
        rw [joinBlock_fst revs c j hj]
      rw [hfilter, hmap, List.sum_replicate, joinBlock_length, nsmul_eq_mul]
    · rw [if_neg hc]
      have hfilter : (joinBlock revs c).filter
          (fun j => j.1.npi == k.1 && j.1.ndc == k.2) = [] := by
        refine List.filter_eq_nil_iff.mpr ?_
        intro j hj
        rw [joinBlock_fst revs c j hj]
        exact fun h => hc h
      rw [hfilter]
      simp

theorem aggRow_mem (claims : List ClaimRow) (revs : List ReversalRow)
    (c : ClaimRow) (hc : c ∈ claims) :
    (⟨c.npi, c.ndc, fillsOf claims revs (c.npi, c.ndc),
      revertedOf claims revs (c.npi, c.ndc),
      avgPriceOf claims revs (c.npi, c.ndc),
      totalPriceOf claims revs (c.npi, c.ndc)⟩ : AggregateRow) ∈
      perform_analysis_core claims revs := by
  have hkey : (c.npi, c.ndc) ∈
      firstDedup ((leftJoin claims revs).map (fun j => (j.1.npi, j.1.ndc))) := by
    rw [mem_firstDedup]
    rcases exists_mem_leftJoin revs c claims hc with ⟨j, hj1, hj2⟩
    exact List.mem_map.mpr ⟨j, hj1, by rw [hj2]⟩
  exact List.mem_map.mpr ⟨(c.npi, c.ndc), hkey, rfl⟩

theorem tcJoin_nil (pharm : List PharmacyRow) : tcJoin pharm [] = [] := rfl

theorem tcJoin_cons (pharm : List PharmacyRow) (c : ClaimRow)
    (cs : List ClaimRow) :
    tcJoin pharm (c :: cs) =
      (tcMatching pharm c).map (fun p => (c, p.chain)) ++ tcJoin pharm cs := rfl

theorem tcMatching_length (pharm : List PharmacyRow) (c : ClaimRow) :
    ((tcMatching pharm c).map (fun p => (c, p.chain))).length =
      (pharm.filter (fun p => p.npi == c.npi)).length := by
  rw [List.length_map]
  rfl

theorem tcGroupPrices_decomposition (pharm : List PharmacyRow) (d ch : Value) :
    ∀ claims : List ClaimRow,
      tcGroupPrices pharm claims d ch =
        claims.flatMap (fun c => if c.ndc == d
          then List.replicate
            ((pharm.filter (fun p => p.npi == c.npi && p.chain == ch)).length)
            c.price
          else []) := by
  intro claims
  induction claims with
  | nil => simp [tcGroupPrices, tcJoin_nil]
  | cons c cs ih =>
    have hsplit : tcGroupPrices pharm (c :: cs) d ch =
        (((tcMatching pharm c).map (fun p => (c, p.chain))).filter
          (fun j => j.1.ndc == d && j.2 == ch)).map (fun j => j.1.price) ++
          tcGroupPrices pharm cs d ch := by
      simp [tcGroupPrices, tcJoin_cons, List.filter_append]
    rw [hsplit, ih, List.flatMap_cons]
    congr 1
    rw [List.filter_map, List.map_map]
    by_cases hd : (c.ndc == d) = true
    · rw [if_pos hd]
      have hpred : ((fun j : ClaimRow × Value => j.1.ndc == d && j.2 == ch) ∘
          fun p : PharmacyRow => (c, p.chain)) = fun p => p.chain == ch := by
        funext p
        simp [Function.comp, hd]
      have hcomp : ((fun j : ClaimRow × Value => j.1.price) ∘
          fun p : PharmacyRow => (c, p.chain)) = fun _ => c.price := rfl
      rw [hpred, hcomp, List.map_const']
      rw [tcMatching, List.filter_filter]
      have hcomm : (fun a : PharmacyRow => a.chain == ch && a.npi == c.npi) =
          (fun a => a.npi == c.npi && a.chain == ch) := by
        funext a
        exact Bool.and_comm _ _
      rw [hcomm]
    · rw [if_neg hd]
      have hd' : (c.ndc == d) = false := by simpa using hd
      have hpred : ((fun j : ClaimRow × Value => j.1.ndc == d && j.2 == ch) ∘
          fun p : PharmacyRow => (c, p.chain)) = fun _ => false := by
        funext p
        simp [Function.comp, hd']
      rw [hpred]
      simp

theorem mem_tcGroupPrices (pharm : List PharmacyRow) (claims : List ClaimRow)
    (c : ClaimRow) (p : PharmacyRow) (hc : c ∈ claims) (hp : p ∈ pharm)
    (hnpi : p.npi = c.npi) :
    c.price ∈ tcGroupPrices pharm claims c.ndc p.chain := by
  rw [tcGroupPrices_decomposition]
  refine List.mem_flatMap.mpr ⟨c, hc, ?_⟩
  rw [if_pos (by simp)]
  refine List.mem_replicate.mpr ⟨?_, rfl⟩
  have : p ∈ pharm.filter (fun q => q.npi == c.npi && q.chain == p.chain) := by
    refine List.mem_filter.mpr ⟨hp, ?_⟩
    simp [hnpi]
  intro hlen
  rw [List.length_eq_zero] at hlen
  rw [hlen] at this
  cases this

/-- Scenario pharmacy row (CVS, npi "123"). -/
def pharmacyCVS : PharmacyRow := ⟨Value.vStr "CVS", Value.vStr "123"⟩

/-- Scenario pharmacy row (Walgreens, npi "456"). -/
def pharmacyWalgreens : PharmacyRow := ⟨Value.vStr "Walgreens", Value.vStr "456"⟩

/-- Scenario claim 1: drug1 at npi "123", quantity 30, price 50. -/
def claimRow1 : ClaimRow :=
  ⟨Value.vStr "1", Value.vStr "drug1", Value.vStr "123", 30, 50,
   Value.vStr "2023-01-01"⟩

/-- Scenario claim 2: drug2 at npi "456", quantity 60, price 100. -/
def claimRow2 : ClaimRow :=
  ⟨Value.vStr "2", Value.vStr "drug2", Value.vStr "456", 60, 100,
   Value.vStr "2023-01-02"⟩

/-- Scenario revert r1 pointing at claim 1. -/
def revertRow1 : ReversalRow :=
  ⟨Value.vStr "r1", Value.vStr "1", Value.vStr "2023-01-02"⟩

/-- Second revert also pointing at claim 1 (duplicate claim_id). -/
def revertRow2 : ReversalRow :=
  ⟨Value.vStr "r2", Value.vStr "1", Value.vStr "2023-01-03"⟩

/-- Claim row whose npi is the NUMBER 123 rather than the string "123". -/
def claimNumericNpi : ClaimRow :=
  ⟨Value.vStr "1", Value.vStr "drug1", Value.vNum 123, 30, 50, Value.vStr "t"⟩

/-- Pharmacy row whose npi is the NUMBER 123 rather than the string "123". -/
def pharmacyNumericNpi : PharmacyRow := ⟨Value.vStr "CVS", Value.vNum 123⟩

/-- Second pharmacy under the same npi "123" but a different chain. -/
def pharmacyRite : PharmacyRow := ⟨Value.vStr "RiteAid", Value.vStr "123"⟩

/-- C1: for the scenario pharmacy table [(CVS,123),(Walgreens,456)], claims
table [(1,drug1,123,30,50),(2,drug2,456,60,100)] and reversal table
[(r1, claim 1)], the summary aggregation returns exactly the two aggregate
rows (123,drug1): fills 30, reverted 1, avg_price 50, total_price 1500 and
(456,drug2): fills 60, reverted 0, avg_price 100, total_price 6000. -/
theorem claim1_summary_aggregation_scenario :
    perform_analysis (some [pharmacyCVS, pharmacyWalgreens])
        (some [claimRow1, claimRow2]) (some [revertRow1]) =
      [⟨Value.vStr "123", Value.vStr "drug1", 30, 1, 50, 1500⟩,
       ⟨Value.vStr "456", Value.vStr "drug2", 60, 0, 100, 6000⟩] := by
  norm_num +decide [perform_analysis, perform_analysis_core, firstDedup,
    firstDedupAux, leftJoin, joinBlock, matchingReverts, groupRows, fillsOf,
    revertedOf, avgPriceOf, totalPriceOf, rollbackFlag, Value.notna,
    pharmacyCVS, pharmacyWalgreens, claimRow1, claimRow2, revertRow1,
    AggregateRow.mk.injEq]

/-- C2 counterexample: with the pharmacy npi being the string "123" and the
claim npi being the number 123, the claim row appears in BOTH the
in-universe output (string-coerced membership, line 149) and the orphaned
output (raw membership, line 150) — while the complement under string
coercion would be empty — so the two outputs do not partition the claims
table as the claim states. -/
theorem claim2_counterexample :
    valid_claims [pharmacyCVS] [claimNumericNpi] = [claimNumericNpi] ∧
    invalid_claims [pharmacyCVS] [claimNumericNpi] = [claimNumericNpi] ∧
    [claimNumericNpi].filter
      (fun c => !(valid_npi_set [pharmacyCVS]).contains c.npi.toStr) = [] := by
  refine ⟨by decide, by decide, by decide⟩

/-- C2 (amended): the in-universe output is exactly the claim rows whose
STRING-COERCED npi lies in the string-coerced pharmacy npi set, but the
orphaned output is the complement under RAW (uncoerced) membership; when
every claim npi is already a string the two coincide and the outputs
partition the claims table (each row in exactly one), while a numeric claim
npi whose string form is in the set lands in both outputs. -/
theorem claim2_referential_filter_amended (pharm : List PharmacyRow)
    (claims : List ClaimRow)
    (h : ∀ c ∈ claims, ∃ s, c.npi = Value.vStr s) :
    (∀ c, c ∈ valid_claims pharm claims ↔
      c ∈ claims ∧ c.npi.toStr ∈ valid_npi_set pharm) ∧
    (∀ c, c ∈ invalid_claims pharm claims ↔
      c ∈ claims ∧ rawIn c.npi (valid_npi_set pharm) = false) ∧
    (valid_claims pharm claims).length + (invalid_claims pharm claims).length
      = claims.length ∧
    (∀ c ∈ claims,
      (c ∈ valid_claims pharm claims ∧ c ∉ invalid_claims pharm claims) ∨
      (c ∉ valid_claims pharm claims ∧ c ∈ invalid_claims pharm claims)) := by
  have hinv : invalid_claims pharm claims =
      claims.filter (fun c => !((valid_npi_set pharm).contains c.npi.toStr)) := by
    refine List.filter_congr ?_
    intro c hc
    rcases h c hc with ⟨s, hs⟩
    rw [hs]
    rfl
  refine ⟨?_, ?_, ?_, ?_⟩
  · intro c
    rw [valid_claims]
    simp [List.mem_filter]
  · intro c
    rw [invalid_claims]
    simp [List.mem_filter]
  · rw [valid_claims, hinv]
    have hperm := (List.filter_append_perm
      (fun c => (valid_npi_set pharm).contains c.npi.toStr) claims).length_eq
    simpa [List.length_append] using hperm
  · intro c hc
    rcases h c hc with ⟨s, hs⟩
    by_cases hmem : (valid_npi_set pharm).contains c.npi.toStr = true
    · left
      constructor
      · exact List.mem_filter.mpr ⟨hc, hmem⟩
      · rw [hinv]
        intro hbad
        have := (List.mem_filter.mp hbad).2
        simp only [Bool.not_eq_true'] at this
        rw [this] at hmem
        cases hmem
    · right
      constructor
      · intro hbad
        exact hmem (List.mem_filter.mp hbad).2
      · rw [hinv]
        refine List.mem_filter.mpr ⟨hc, ?_⟩
        simp only [Bool.not_eq_true']
        simpa using hmem

/-- Witness for the amended C2 at an all-string claims table. -/
theorem claim2_referential_filter_amended_witness :
    (∀ c, c ∈ valid_claims [pharmacyCVS] [claimRow1] ↔
      c ∈ [claimRow1] ∧ c.npi.toStr ∈ valid_npi_set [pharmacyCVS]) ∧
    (∀ c, c ∈ invalid_claims [pharmacyCVS] [claimRow1] ↔
      c ∈ [claimRow1] ∧ rawIn c.npi (valid_npi_set [pharmacyCVS]) = false) ∧
    (valid_claims [pharmacyCVS] [claimRow1]).length +
      (invalid_claims [pharmacyCVS] [claimRow1]).length = [claimRow1].length ∧
    (∀ c ∈ [claimRow1],
      (c ∈ valid_claims [pharmacyCVS] [claimRow1] ∧
        c ∉ invalid_claims [pharmacyCVS] [claimRow1]) ∨
      (c ∉ valid_claims [pharmacyCVS] [claimRow1] ∧
        c ∈ invalid_claims [pharmacyCVS] [claimRow1])) :=
  claim2_referential_filter_amended [pharmacyCVS] [claimRow1]
    (fun c hc => ⟨"123", by rw [List.mem_singleton.mp hc]; rfl⟩)

/-- C3 counterexample: an empty claims directory yields the empty frame with
no columns at all, and the downstream top-quantities stage then raises its
missing-column error instead of running to an empty output. -/
theorem claim3_counterexample :
    calculate_top_prescribed_quantities
        (process_folder claims_required_columns []).1 =
      Except.error "Column npi not found in claims_data" := rfl

/-- C3 (amended): only SOME downstream stages run empty inputs to empty
outputs, and only when the empty table keeps its schema columns: the
referential filter, the summary aggregation and top-quantities produce
empty results on empty schema-bearing inputs, but top-chains raises an
AttributeError on an empty claims table (zero ndc groups make
groupby-apply return a DataFrame with no .tolist, line 274), and the empty
no-column table produced by an empty directory makes top-quantities raise
its missing-column error (the filter's npi access would fail the same
way). -/
theorem claim3_empty_tables_amended (cols : List String)
    (h1 : "npi" ∈ cols) (h2 : "quantity" ∈ cols)
    (pharm : List PharmacyRow) (revs : List ReversalRow) :
    valid_claims pharm [] = [] ∧
    invalid_claims pharm [] = [] ∧
    perform_analysis (some pharm) (some []) (some revs) = [] ∧
    calculate_top_prescribed_quantities ⟨cols, []⟩ =
      Except.ok ([] : List (String × List ℚ)) ∧
    (calculate_top_chains pharm []).1 =
      Except.error "AttributeError: DataFrame object has no attribute tolist" := by
  refine ⟨rfl, rfl, rfl, ?_, rfl⟩
  rw [calculate_top_prescribed_quantities, if_pos h1, if_pos h2]
  rfl

/-- Witness for the amended C3 at a concrete schema-bearing empty table. -/
theorem claim3_empty_tables_amended_witness :
    valid_claims [pharmacyCVS] [] = [] ∧
    invalid_claims [pharmacyCVS] [] = [] ∧
    perform_analysis (some [pharmacyCVS]) (some []) (some [revertRow1]) = [] ∧
    calculate_top_prescribed_quantities ⟨["npi", "quantity"], []⟩ =
      Except.ok ([] : List (String × List ℚ)) ∧
    (calculate_top_chains [pharmacyCVS] []).1 =
      Except.error "AttributeError: DataFrame object has no attribute tolist" :=
  claim3_empty_tables_amended ["npi", "quantity"] (by decide) (by decide)
    [pharmacyCVS] [revertRow1]

/-- C4: when every required field is present among the batch's columns, the
validator's two outputs are disjoint, their union is a permutation of the
input batch (same row count and same row contents), and a row goes to the
valid side iff every required field of that row is non-null, to the invalid
side otherwise. -/
theorem claim4_validator_partition (required : List String) (b : Batch)
    (h : required.all (fun c => b.cols.contains c) = true) :
    List.Perm (validRowsOf required b ++ invalidRowsOf required b) b.rows ∧
    (validRowsOf required b).length + (invalidRowsOf required b).length =
      b.rows.length ∧
    (∀ row, row ∈ validRowsOf required b ↔
      row ∈ b.rows ∧ rowValid b.cols required row = true) ∧
    (∀ row, row ∈ invalidRowsOf required b ↔
      row ∈ b.rows ∧ rowValid b.cols required row = false) ∧
    (∀ row, ¬(row ∈ validRowsOf required b ∧
      row ∈ invalidRowsOf required b)) := by
  have hv : validRowsOf required b =
      b.rows.filter (rowValid b.cols required) := by
    simp only [validRowsOf, load_and_validate]
    rw [if_pos h]
  have hi : invalidRowsOf required b =
      b.rows.filter (fun r => !rowValid b.cols required r) := by
    simp only [invalidRowsOf, load_and_validate]
    rw [if_pos h]
  refine ⟨?_, ?_, ?_, ?_, ?_⟩
  · rw [hv, hi]
    exact List.filter_append_perm _ _
  · rw [hv, hi]
    have hperm :=
      (List.filter_append_perm (rowValid b.cols required) b.rows).length_eq
    simpa [List.length_append] using hperm
  · intro row
    rw [hv]
    simp [List.mem_filter]
  · intro row
    rw [hi]
    simp [List.mem_filter]
  · intro row
    rintro ⟨hrv, hri⟩
    rw [hv] at hrv
    rw [hi] at hri
    have e1 := (List.mem_filter.mp hrv).2
    have e2 := (List.mem_filter.mp hri).2
    rw [e1] at e2
    cases e2

/-- Batch used to witness C4: both required pharmacy columns are present;
the second row has a null npi. -/
def pharmacyBatchWitness : Batch :=
  ⟨["chain", "npi"],
   [[Value.vStr "CVS", Value.vStr "123"], [Value.vStr "CVS", Value.null]]⟩

/-- Witness for C4 at a concrete two-row pharmacy batch. -/
theorem claim4_validator_partition_witness :
    List.Perm (validRowsOf pharmacies_required_columns pharmacyBatchWitness ++
      invalidRowsOf pharmacies_required_columns pharmacyBatchWitness)
      pharmacyBatchWitness.rows ∧
    (validRowsOf pharmacies_required_columns pharmacyBatchWitness).length +
      (invalidRowsOf pharmacies_required_columns pharmacyBatchWitness).length =
      pharmacyBatchWitness.rows.length ∧
    (∀ row, row ∈ validRowsOf pharmacies_required_columns pharmacyBatchWitness ↔
      row ∈ pharmacyBatchWitness.rows ∧
      rowValid pharmacyBatchWitness.cols pharmacies_required_columns row = true) ∧
    (∀ row, row ∈ invalidRowsOf pharmacies_required_columns pharmacyBatchWitness ↔
      row ∈ pharmacyBatchWitness.rows ∧
      rowValid pharmacyBatchWitness.cols pharmacies_required_columns row = false) ∧
    (∀ row, ¬(row ∈ validRowsOf pharmacies_required_columns pharmacyBatchWitness ∧
      row ∈ invalidRowsOf pharmacies_required_columns pharmacyBatchWitness)) :=
  claim4_validator_partition pharmacies_required_columns pharmacyBatchWitness
    (by decide)

/-- C5: when some required field is missing from the batch's columns the
validator yields no valid part and the entire batch as invalid, and through
the folder loader such a file contributes zero valid rows while its whole
content goes to the quarantine side. -/
theorem claim5_whole_batch_rejected (required : List String) (b : Batch)
    (h : required.all (fun c => b.cols.contains c) = false) :
    (load_and_validate required b).1 = none ∧
    (load_and_validate required b).2 = b ∧
    validRowsOf required b = [] ∧
    (process_folder required [b]).1.rows = [] ∧
    (process_folder required [b]).2.rows = b.rows := by
  have h' : ¬ ∀ x ∈ required, x ∈ b.cols := by
    intro hall
    have htrue : required.all (fun c => b.cols.contains c) = true := by
      simpa using hall
    rw [htrue] at h
    cases h
  have h1 : load_and_validate required b = (none, b) := by
    simp [load_and_validate, h']
  refine ⟨by rw [h1], by rw [h1], ?_, ?_, ?_⟩
  · rw [validRowsOf, h1]
  · simp [process_folder, h1, concatBatches]
  · simp [process_folder, h1, concatBatches]

/-- Batch used to witness C5: a pharmacy file missing the npi column. -/
def pharmacyBatchNoNpi : Batch := ⟨["chain"], [[Value.vStr "CVS"]]⟩

/-- Witness for C5 at a concrete batch missing the npi column. -/
theorem claim5_whole_batch_rejected_witness :
    (load_and_validate pharmacies_required_columns pharmacyBatchNoNpi).1 =
      none ∧
    (load_and_validate pharmacies_required_columns pharmacyBatchNoNpi).2 =
      pharmacyBatchNoNpi ∧
    validRowsOf pharmacies_required_columns pharmacyBatchNoNpi = [] ∧
    (process_folder pharmacies_required_columns [pharmacyBatchNoNpi]).1.rows =
      [] ∧
    (process_folder pharmacies_required_columns [pharmacyBatchNoNpi]).2.rows =
      pharmacyBatchNoNpi.rows :=
  claim5_whole_batch_rejected pharmacies_required_columns pharmacyBatchNoNpi
    (by decide)

/-- C6: on a claims table containing the columns npi and quantity,
top-quantities succeeds and emits exactly one entry per distinct
(string-coerced) npi; each entry's quantity list has length at most 4,
contains only quantities observed for that npi, and is ordered by strictly
dominant frequency with frequency ties broken by the first-occurrence order
of the quantity inside that npi's group. -/
theorem claim6_top_quantities (b : Batch)
    (h1 : "npi" ∈ b.cols) (h2 : "quantity" ∈ b.cols) :
    calculate_top_prescribed_quantities b =
      Except.ok (topQuantitiesCore (tqExtract b)) ∧
    ((topQuantitiesCore (tqExtract b)).map Prod.fst).Nodup ∧
    (∀ n, n ∈ (topQuantitiesCore (tqExtract b)).map Prod.fst ↔
      n ∈ (tqExtract b).map Prod.fst) ∧
    ∀ e ∈ topQuantitiesCore (tqExtract b),
      e.2.length ≤ 4 ∧
      (∀ q ∈ e.2, q ∈ groupQ (tqExtract b) e.1) ∧
      e.2.Pairwise (fun a c =>
        (groupQ (tqExtract b) e.1).count c < (groupQ (tqExtract b) e.1).count a ∨
        ((groupQ (tqExtract b) e.1).count a = (groupQ (tqExtract b) e.1).count c ∧
          firstIdx (groupQ (tqExtract b) e.1) a <
            firstIdx (groupQ (tqExtract b) e.1) c)) := by
  obtain ⟨s1, s2, s3⟩ := topQuantitiesCore_spec (tqExtract b)
  exact ⟨by rw [calculate_top_prescribed_quantities, if_pos h1, if_pos h2],
    s1, s2, s3⟩

/-- Claims batch used to witness C6. -/
def claimsBatchWitness : Batch :=
  ⟨["npi", "quantity"],
   [[Value.vStr "a", Value.vNum 5], [Value.vStr "a", Value.vNum 7],
    [Value.vStr "b", Value.vNum 7]]⟩

/-- Witness for C6 at a concrete two-npi claims batch. -/
theorem claim6_top_quantities_witness :
    calculate_top_prescribed_quantities claimsBatchWitness =
      Except.ok (topQuantitiesCore (tqExtract claimsBatchWitness)) ∧
    ((topQuantitiesCore (tqExtract claimsBatchWitness)).map Prod.fst).Nodup ∧
    (∀ n, n ∈ (topQuantitiesCore (tqExtract claimsBatchWitness)).map Prod.fst ↔
      n ∈ (tqExtract claimsBatchWitness).map Prod.fst) ∧
    ∀ e ∈ topQuantitiesCore (tqExtract claimsBatchWitness),
      e.2.length ≤ 4 ∧
      (∀ q ∈ e.2, q ∈ groupQ (tqExtract claimsBatchWitness) e.1) ∧
      e.2.Pairwise (fun a c =>
        (groupQ (tqExtract claimsBatchWitness) e.1).count c <
          (groupQ (tqExtract claimsBatchWitness) e.1).count a ∨
        ((groupQ (tqExtract claimsBatchWitness) e.1).count a =
          (groupQ (tqExtract claimsBatchWitness) e.1).count c ∧
          firstIdx (groupQ (tqExtract claimsBatchWitness) e.1) a <
            firstIdx (groupQ (tqExtract claimsBatchWitness) e.1) c)) :=
  claim6_top_quantities claimsBatchWitness (by decide) (by decide)

/-- C7: whenever any of the pharmacy, claims or rollback inputs of
`perform_analysis` is absent (None), the analysis returns the empty result
instead of raising, for every combination with at least one absent input. -/
theorem claim7_missing_input (pharmacy_data : Option (List PharmacyRow))
    (claims_data : Option (List ClaimRow))
    (rollbacks_data : Option (List ReversalRow))
    (h : pharmacy_data = none ∨ claims_data = none ∨ rollbacks_data = none) :
    perform_analysis pharmacy_data claims_data rollbacks_data = [] := by
  rcases pharmacy_data with _ | p <;> rcases claims_data with _ | c <;>
    rcases rollbacks_data with _ | r <;> simp_all [perform_analysis]

/-- Witness for C7 with an absent claims table. -/
theorem claim7_missing_input_witness :
    ((some [pharmacyCVS] : Option (List PharmacyRow)) = none ∨
      (none : Option (List ClaimRow)) = none ∨
      (some [revertRow1] : Option (List ReversalRow)) = none) ∧
    perform_analysis (some [pharmacyCVS]) none (some [revertRow1]) = [] :=
  ⟨Or.inr (Or.inl rfl),
   claim7_missing_input (some [pharmacyCVS]) none (some [revertRow1])
     (Or.inr (Or.inl rfl))⟩

/-- C8 counterexample: the stages DO mutate their inputs — with a numeric
npi in the caller's tables, after top-quantities (lines 209-210) the
caller's claims table differs from what was passed in, and after top-chains
(lines 240-242) both the caller's pharmacy and claims tables differ. -/
theorem claim8_counterexample :
    topQuantitiesEffect [claimNumericNpi] ≠ [claimNumericNpi] ∧
    (calculate_top_chains [pharmacyNumericNpi] [claimNumericNpi]).2.1 ≠
      [pharmacyNumericNpi] ∧
    (calculate_top_chains [pharmacyNumericNpi] [claimNumericNpi]).2.2 ≠
      [claimNumericNpi] := by
  refine ⟨by decide, by decide, by decide⟩

/-- C8 (amended): top-quantities writes a string-coerced npi column (and a
float-coerced quantity column) into the caller's claims table, and
top-chains writes string-coerced npi/ndc columns into the caller's pharmacy
and claims tables; only when those columns are already strings (as they are
for data that flowed through the pipeline's own loaders on string-keyed
files) do the callers' tables come back unchanged. -/
theorem claim8_no_mutation_amended (pharm : List PharmacyRow)
    (claims : List ClaimRow)
    (hp : ∀ p ∈ pharm, ∃ s, p.npi = Value.vStr s)
    (hc : ∀ c ∈ claims,
      (∃ s, c.npi = Value.vStr s) ∧ ∃ t, c.ndc = Value.vStr t) :
    topQuantitiesEffect claims = claims ∧
    (calculate_top_chains pharm claims).2.1 = pharm ∧
    (calculate_top_chains pharm claims).2.2 = claims := by
  have hte : topQuantitiesEffect claims = claims := by
    rw [topQuantitiesEffect]
    have hcongr : claims.map (fun c => { c with npi := Value.vStr c.npi.toStr })
        = claims.map id := by
      refine List.map_congr_left ?_
      intro c hcm
      rcases (hc c hcm).1 with ⟨s, hs⟩
      cases c
      simp_all [Value.toStr]
    rw [hcongr, List.map_id]
  have hpe : tcPharmacyEffect pharm = pharm := by
    rw [tcPharmacyEffect]
    have hcongr : pharm.map (fun p => { p with npi := Value.vStr p.npi.toStr })
        = pharm.map id := by
      refine List.map_congr_left ?_
      intro p hpm
      rcases hp p hpm with ⟨s, hs⟩
      cases p
      simp_all [Value.toStr]
    rw [hcongr, List.map_id]
  have hce : tcClaimsEffect claims = claims := by
    rw [tcClaimsEffect]
    have hcongr : claims.map (fun c => { c with
        npi := Value.vStr c.npi.toStr, ndc := Value.vStr c.ndc.toStr })
        = claims.map id := by
      refine List.map_congr_left ?_
      intro c hcm
      rcases hc c hcm with ⟨⟨s, hs⟩, ⟨t, ht⟩⟩
      cases c
      simp_all [Value.toStr]
    rw [hcongr, List.map_id]
  exact ⟨hte, by rw [calculate_top_chains]; exact hpe,
    by rw [calculate_top_chains]; exact hce⟩

/-- Witness for the amended C8 at all-string tables. -/
theorem claim8_no_mutation_amended_witness :
    topQuantitiesEffect [claimRow1] = [claimRow1] ∧
    (calculate_top_chains [pharmacyCVS] [claimRow1]).2.1 = [pharmacyCVS] ∧
    (calculate_top_chains [pharmacyCVS] [claimRow1]).2.2 = [claimRow1] :=
  claim8_no_mutation_amended [pharmacyCVS] [claimRow1]
    (fun p hp => ⟨"123", by rw [List.mem_singleton.mp hp]; rfl⟩)
    (fun c hc => ⟨⟨"123", by rw [List.mem_singleton.mp hc]; rfl⟩,
      ⟨"drug1", by rw [List.mem_singleton.mp hc]; rfl⟩⟩)

/-- C9: when k reverts (k at least 2) share the claim_id of a claim in the
table, the left join fans that claim out into k joined rows; the summary
aggregation emits an aggregate row for that claim's (npi, ndc) group whose
fills decomposes as a sum in which every claim of the group contributes its
quantity once per matching revert (max 1 times with no match) — so this
claim's quantity enters fills k times — and total_price decomposes the same
way over price times quantity. -/
theorem claim9_duplicate_revert_fanout (claims : List ClaimRow)
    (revs : List ReversalRow) (c : ClaimRow) (k : ℕ)
    (hc : c ∈ claims) (hk : (matchingReverts revs c).length = k)
    (h2 : 2 ≤ k) :
    (joinBlock revs c).length = k ∧
    (⟨c.npi, c.ndc, fillsOf claims revs (c.npi, c.ndc),
      revertedOf claims revs (c.npi, c.ndc),
      avgPriceOf claims revs (c.npi, c.ndc),
      totalPriceOf claims revs (c.npi, c.ndc)⟩ : AggregateRow) ∈
        perform_analysis_core claims revs ∧
    fillsOf claims revs (c.npi, c.ndc) =
      (claims.map (fun x => if x.npi == c.npi && x.ndc == c.ndc
        then (((max 1 (matchingReverts revs x).length : ℕ) : ℚ) * x.quantity)
        else 0)).sum ∧
    totalPriceOf claims revs (c.npi, c.ndc) =
      (claims.map (fun x => if x.npi == c.npi && x.ndc == c.ndc
        then (((max 1 (matchingReverts revs x).length : ℕ) : ℚ) *
          (x.price * x.quantity))
        else 0)).sum ∧
    ((max 1 (matchingReverts revs c).length : ℕ) : ℚ) = (k : ℚ) := by
  refine ⟨?_, aggRow_mem claims revs c hc, ?_, ?_, ?_⟩
  · rw [joinBlock_length, hk]
    omega
  · exact groupRows_weight_sum (fun x => x.quantity) revs (c.npi, c.ndc) claims
  · exact groupRows_weight_sum (fun x => x.price * x.quantity) revs
      (c.npi, c.ndc) claims
  · rw [hk, Nat.max_eq_right (by omega)]

/-- Witness for C9: two reverts with the same claim_id "1" against the
single claim with id "1". -/
theorem claim9_duplicate_revert_fanout_witness :
    (joinBlock [revertRow1, revertRow2] claimRow1).length = 2 ∧
    (⟨claimRow1.npi, claimRow1.ndc,
      fillsOf [claimRow1] [revertRow1, revertRow2] (claimRow1.npi, claimRow1.ndc),
      revertedOf [claimRow1] [revertRow1, revertRow2]
        (claimRow1.npi, claimRow1.ndc),
      avgPriceOf [claimRow1] [revertRow1, revertRow2]
        (claimRow1.npi, claimRow1.ndc),
      totalPriceOf [claimRow1] [revertRow1, revertRow2]
        (claimRow1.npi, claimRow1.ndc)⟩ : AggregateRow) ∈
        perform_analysis_core [claimRow1] [revertRow1, revertRow2] ∧
    fillsOf [claimRow1] [revertRow1, revertRow2] (claimRow1.npi, claimRow1.ndc) =
      ([claimRow1].map (fun x => if x.npi == claimRow1.npi && x.ndc == claimRow1.ndc
        then (((max 1 (matchingReverts [revertRow1, revertRow2] x).length : ℕ) : ℚ)
          * x.quantity)
        else 0)).sum ∧
    totalPriceOf [claimRow1] [revertRow1, revertRow2]
        (claimRow1.npi, claimRow1.ndc) =
      ([claimRow1].map (fun x => if x.npi == claimRow1.npi && x.ndc == claimRow1.ndc
        then (((max 1 (matchingReverts [revertRow1, revertRow2] x).length : ℕ) : ℚ)
          * (x.price * x.quantity))
        else 0)).sum ∧
    ((max 1 (matchingReverts [revertRow1, revertRow2] claimRow1).length : ℕ) : ℚ)
      = ((2 : ℕ) : ℚ) :=
  claim9_duplicate_revert_fanout [claimRow1] [revertRow1, revertRow2]
    claimRow1 2 (by decide) (by decide) (by decide)

theorem vStr_beq_vStr (a b : String) :
    (Value.vStr a == Value.vStr b) = (a == b) := by
  by_cases h : a = b
  · subst h
    simp
  · simp [h]

/-- String coercion of one claim row as performed in-place by
`calculate_top_chains` (npi and ndc to strings). -/
def tcCoerceClaim (c : ClaimRow) : ClaimRow :=
  { c with npi := Value.vStr c.npi.toStr, ndc := Value.vStr c.ndc.toStr }

/-- String coercion of one pharmacy row as performed in-place by
`calculate_top_chains` (npi to string). -/
def tcCoercePharmacy (p : PharmacyRow) : PharmacyRow :=
  { p with npi := Value.vStr p.npi.toStr }

/-- C10: when several pharmacy rows share one (string-coerced) npi, the
top-chains inner join fans each claim carrying that npi out into one joined
row per matching pharmacy row; every (ndc, chain) group's price column is
exactly the claims' prices repeated once per matching pharmacy row of that
chain; in particular with the same npi under two different chains, one
claim's price enters the avg_price group of both chains. -/
theorem claim10_duplicate_pharmacy_fanout (pharm : List PharmacyRow)
    (claims : List ClaimRow) (c : ClaimRow) (p1 p2 : PharmacyRow)
    (hc : c ∈ claims) (hp1 : p1 ∈ pharm) (hp2 : p2 ∈ pharm)
    (h1 : p1.npi.toStr = c.npi.toStr) (h2 : p2.npi.toStr = c.npi.toStr)
    (_hch : p1.chain ≠ p2.chain) :
    (tcMatching (tcPharmacyEffect pharm) (tcCoerceClaim c)).length =
      (pharm.filter (fun p => p.npi.toStr == c.npi.toStr)).length ∧
    (∀ d ch,
      tcGroupPrices (tcPharmacyEffect pharm) (tcClaimsEffect claims) d ch =
        (tcClaimsEffect claims).flatMap (fun x => if x.ndc == d
          then List.replicate
            (((tcPharmacyEffect pharm).filter
              (fun p => p.npi == x.npi && p.chain == ch)).length) x.price
          else [])) ∧
    c.price ∈ tcGroupPrices (tcPharmacyEffect pharm) (tcClaimsEffect claims)
      (Value.vStr c.ndc.toStr) p1.chain ∧
    c.price ∈ tcGroupPrices (tcPharmacyEffect pharm) (tcClaimsEffect claims)
      (Value.vStr c.ndc.toStr) p2.chain := by
  refine ⟨?_, ?_, ?_, ?_⟩
  · rw [tcMatching, tcPharmacyEffect, List.filter_map, List.length_map]
    apply congrArg List.length
    refine List.filter_congr ?_
    intro p _
    show (Value.vStr p.npi.toStr == Value.vStr c.npi.toStr) =
      (p.npi.toStr == c.npi.toStr)
    exact vStr_beq_vStr _ _
  · intro d ch
    exact tcGroupPrices_decomposition (tcPharmacyEffect pharm) d ch
      (tcClaimsEffect claims)
  · exact mem_tcGroupPrices (tcPharmacyEffect pharm) (tcClaimsEffect claims)
      (tcCoerceClaim c) (tcCoercePharmacy p1)
      (List.mem_map.mpr ⟨c, hc, rfl⟩) (List.mem_map.mpr ⟨p1, hp1, rfl⟩)
      (congrArg Value.vStr h1)
  · exact mem_tcGroupPrices (tcPharmacyEffect pharm) (tcClaimsEffect claims)
      (tcCoerceClaim c) (tcCoercePharmacy p2)
      (List.mem_map.mpr ⟨c, hc, rfl⟩) (List.mem_map.mpr ⟨p2, hp2, rfl⟩)
      (congrArg Value.vStr h2)

/-- Witness for C10: npi "123" listed under both CVS and RiteAid; the single
claim at npi "123" counts toward both chains. -/
theorem claim10_duplicate_pharmacy_fanout_witness :
    (tcMatching (tcPharmacyEffect [pharmacyCVS, pharmacyRite])
        (tcCoerceClaim claimRow1)).length =
      ([pharmacyCVS, pharmacyRite].filter
        (fun p => p.npi.toStr == claimRow1.npi.toStr)).length ∧
    (∀ d ch,
      tcGroupPrices (tcPharmacyEffect [pharmacyCVS, pharmacyRite])
          (tcClaimsEffect [claimRow1]) d ch =
        (tcClaimsEffect [claimRow1]).flatMap (fun x => if x.ndc == d
          then List.replicate
            (((tcPharmacyEffect [pharmacyCVS, pharmacyRite]).filter
              (fun p => p.npi == x.npi && p.chain == ch)).length) x.price
          else [])) ∧
    claimRow1.price ∈ tcGroupPrices (tcPharmacyEffect [pharmacyCVS, pharmacyRite])
      (tcClaimsEffect [claimRow1]) (Value.vStr claimRow1.ndc.toStr)
      pharmacyCVS.chain ∧
    claimRow1.price ∈ tcGroupPrices (tcPharmacyEffect [pharmacyCVS, pharmacyRite])
      (tcClaimsEffect [claimRow1]) (Value.vStr claimRow1.ndc.toStr)
      pharmacyRite.chain :=
  claim10_duplicate_pharmacy_fanout [pharmacyCVS, pharmacyRite] [claimRow1]
    claimRow1 pharmacyCVS pharmacyRite (by decide) (by decide) (by decide)
    (by decide) (by decide) (by decide)
